import Mathlib

/-!
Verification development for the stylist-rs style compilation and caching
engine.  The development shallowly embeds the two generations of the `Style`
code found in the repository:

* `Core` — `packages/stylist-core/src/style.rs` (`StyleContent`, `Style`,
  `create_from_scopes_impl`, `try_from_scopes`, `get_class_name`,
  `get_style_str`, `unregister`), where the registry deduplicates styles by a
  structural `StyleKey` and lock acquisition uses `.lock().unwrap()`.
* `Old` / `OldWasm` — `src/style/mod.rs`, where `Style::create` always mints a
  fresh class name, registers the style keyed by that class name, and recovers
  a poisoned lock via `poisoned.into_inner()`; the non-wasm build drops parse
  errors with `.ok()` while the wasm build propagates them with `?`.
* `Rc` — the reference-count lifecycle of `Arc<StyleContent>` together with
  the `Drop` implementation that unmounts a style when the last handle goes
  away.

The AST (`crate::ast`), the parser, the registry internals
(`crate::registry`) and `get_rand_str` are declared and called by the sources
above but their defining modules are not part of the source tree; they are
modelled from the specification and marked as such in their doc comments.
Randomness is modelled by an explicit stream of suffix strings, and the
global mutex plus external DOM sink by explicit state threading with
environment flags for lock poisoning and sink failure.
-/

mutual
/-- Modelled from the spec: the AST content of one scope (`crate::ast`,
not in the source tree).  A content item is either a `property: value`
declaration or a nested scope (a selector fragment with its own contents);
ordering is significant. -/
inductive ScopeContent : Type where
  | decl (property value : String) : ScopeContent
  | nested (selector : String) (contents : ContentList) : ScopeContent

inductive ContentList : Type where
  | nil : ContentList
  | cons (head : ScopeContent) (tail : ContentList) : ContentList
end

mutual
/-- Structural (content-wise) equality on scope contents, as derived
`PartialEq` would produce for the Rust AST types. -/
def ScopeContent.beq : ScopeContent → ScopeContent → Bool
  | .decl p v, .decl p' v' => p = p' && v = v'
  | .nested s cs, .nested s' cs' => s = s' && ContentList.beq cs cs'
  | _, _ => false

/-- Structural equality on content lists. -/
def ContentList.beq : ContentList → ContentList → Bool
  | .nil, .nil => true
  | .cons a t, .cons a' t' => ScopeContent.beq a a' && ContentList.beq t t'
  | _, _ => false
end

mutual
def ScopeContent.eq_of_beq : ∀ {a b : ScopeContent}, ScopeContent.beq a b = true → a = b
  | .decl p v, .decl p' v', h => by
    simp only [ScopeContent.beq, Bool.and_eq_true, decide_eq_true_eq] at h
    simp [h.1, h.2]
  | .nested s cs, .nested s' cs', h => by
    simp only [ScopeContent.beq, Bool.and_eq_true, decide_eq_true_eq] at h
    have := ContentList.eq_of_beq h.2
    simp [h.1, this]

def ContentList.eq_of_beq : ∀ {a b : ContentList}, ContentList.beq a b = true → a = b
  | .nil, .nil, _ => rfl
  | .cons a t, .cons a' t', h => by
    simp only [ContentList.beq, Bool.and_eq_true] at h
    have h1 := ScopeContent.eq_of_beq h.1
    have h2 := ContentList.eq_of_beq h.2
    simp [h1, h2]
end

mutual
def ScopeContent.beq_refl : ∀ (a : ScopeContent), ScopeContent.beq a a = true
  | .decl _ _ => by simp [ScopeContent.beq]
  | .nested _ cs => by simp [ScopeContent.beq, ContentList.beq_refl cs]

def ContentList.beq_refl : ∀ (a : ContentList), ContentList.beq a a = true
  | .nil => rfl
  | .cons a t => by simp [ContentList.beq, ScopeContent.beq_refl a, ContentList.beq_refl t]
end

instance : DecidableEq ScopeContent := fun a b =>
  if h : ScopeContent.beq a b = true then .isTrue (ScopeContent.eq_of_beq h)
  else .isFalse (fun e => h (e ▸ ScopeContent.beq_refl a))

instance : DecidableEq ContentList := fun a b =>
  if h : ContentList.beq a b = true then .isTrue (ContentList.eq_of_beq h)
  else .isFalse (fun e => h (e ▸ ContentList.beq_refl a))

/-- Modelled from the spec: one style rule — a selector fragment (empty for
the root scope) plus its ordered contents (`crate::ast::Scope`). -/
structure Scope where
  selector : String
  contents : ContentList
deriving DecidableEq

/-- Modelled from the spec: the AST root, an ordered sequence of scopes
(`crate::ast::Scopes` in stylist-core, `Vec<Scope>` in the old module). -/
abbrev Scopes := List Scope

/-- Convert a Lean list of contents into the AST's content list. -/
def toContentList : List ScopeContent → ContentList
  | [] => .nil
  | c :: t => .cons c (toContentList t)

/-- Whitespace test used by the parser and renderer models. -/
def isWs (c : Char) : Bool := c = ' ' || c = '\n' || c = '\t' || c = '\r'

/-- The opening brace character. -/
def lbraceC : Char := Char.ofNat 123

/-- The closing brace character. -/
def rbraceC : Char := Char.ofNat 125

/-- Trim leading and trailing whitespace from a character list. -/
def trimChars (cs : List Char) : List Char :=
  ((cs.dropWhile isWs).reverse.dropWhile isWs).reverse

/-- Substitute each `&` self token in a selector by the base selector. -/
def substAmp (base : String) : List Char → String
  | [] => ""
  | c :: t => (if c = '&' then base else c.toString) ++ substAmp base t

/-- Modelled from the spec: the scoping transform of the renderer.  The root
scope (empty selector) resolves to `.class`; a selector containing the `&`
self token has `&` replaced by the resolved parent selector; any other
selector nests under the parent as a descendant. -/
def combineSelector (cls parentSel sel : String) : String :=
  let base := if parentSel = "" then "." ++ cls else parentSel
  let s := String.mk (trimChars sel.data)
  if s = "" then base
  else if s.data.contains '&' then substAmp base s.data
  else base ++ " " ++ s

/-- Render the declaration items of one scope as `property: value;` text. -/
def ContentList.renderDecls : ContentList → String
  | .nil => ""
  | .cons (.decl p v) t => p ++ ": " ++ v ++ "; " ++ ContentList.renderDecls t
  | .cons (.nested _ _) t => ContentList.renderDecls t

mutual
/-- Render the nested scopes of a content item as their own rules, with
selectors resolved relative to the parent's resolved selector. -/
def ScopeContent.renderNested (cls resolved : String) : ScopeContent → String
  | .decl _ _ => ""
  | .nested sel cs =>
    let r := combineSelector cls resolved sel
    r ++ " \x7b " ++ ContentList.renderDecls cs ++ "\x7d\n" ++
      ContentList.renderNested cls r cs

/-- Render the nested scopes of all items in a content list. -/
def ContentList.renderNested (cls resolved : String) : ContentList → String
  | .nil => ""
  | .cons c t =>
    ScopeContent.renderNested cls resolved c ++ ContentList.renderNested cls resolved t
end

/-- Render one scope as a rule for the given resolved selector, followed by
the rules of its nested scopes. -/
def renderRule (cls resolved : String) (cs : ContentList) : String :=
  resolved ++ " \x7b " ++ ContentList.renderDecls cs ++ "\x7d\n" ++
    ContentList.renderNested cls resolved cs

/-- Modelled from the spec: the per-scope renderer (`Scope::to_css` of the
old ast module): one scope rendered against a class name. -/
def Scope.to_css (sc : Scope) (cls : String) : String :=
  renderRule cls (combineSelector cls "" sc.selector) sc.contents

/-- Modelled from the spec: the renderer (`Scopes::to_css` of `crate::ast`,
not in the source tree): pure function AST plus class name to final style
text, applying the scoping transform; it never mutates the AST. -/
def Scopes.to_css (ast : Scopes) (cls : String) : String :=
  (ast.map (fun sc => Scope.to_css sc cls)).foldl (fun acc part => acc ++ part) ""

/-- Modelled from the spec: the kind of a parse error (malformed declaration
separator, unbalanced braces, or an interpolation naming no binding). -/
inductive ParseErrorKind : Type where
  | missingColon : ParseErrorKind
  | unbalancedBraces : ParseErrorKind
  | unknownInterpolation : ParseErrorKind
deriving DecidableEq

/-- Modelled from the spec: `ParseError{kind, position}`. -/
structure ParseError where
  kind : ParseErrorKind
  position : Nat
deriving DecidableEq

/-- A mapping of interpolation names to runtime-provided strings. -/
abbrev Bindings := List (String × String)

/-- Look up an interpolation binding by name. -/
def lookupBinding (b : Bindings) (name : String) : Option String :=
  match b with
  | [] => none
  | (n, v) :: t => if n = name then some v else lookupBinding t name

/-- Characters that end a parser segment. -/
def isDelim (c : Char) : Bool := c = ':' || c = ';' || c = lbraceC || c = rbraceC

/-- Substitute `${name}` interpolation placeholders in a value using the
bindings; a placeholder naming no binding is a parse error. -/
def substInterp (b : Bindings) : Nat → List Char → Nat → Except ParseError String
  | 0, _, pos => .error ⟨.unbalancedBraces, pos⟩
  | _ + 1, [], _ => .ok ""
  | f + 1, c :: rest, pos =>
    if c = '$' && rest.head? = some lbraceC then
      let nameCs := (rest.drop 1).takeWhile (fun x => !(x == rbraceC))
      let rest' := (rest.drop 1).dropWhile (fun x => !(x == rbraceC))
      match rest' with
      | [] => .error ⟨.unbalancedBraces, pos⟩
      | _ :: rest'' =>
        match lookupBinding b (String.mk (trimChars nameCs)) with
        | none => .error ⟨.unknownInterpolation, pos⟩
        | some v =>
          match substInterp b f rest'' (pos + nameCs.length + 3) with
          | .error e => .error e
          | .ok s => .ok (v ++ s)
    else
      match substInterp b f rest (pos + 1) with
      | .error e => .error e
      | .ok s => .ok (c.toString ++ s)

/-- Scan the raw characters of a declaration value, keeping interpolation
placeholders (including their braces) intact; stops before `;`, a brace, or
the end of input. -/
def scanValue : Nat → List Char → List Char × List Char
  | 0, cs => ([], cs)
  | _ + 1, [] => ([], [])
  | f + 1, c :: rest =>
    if c = ';' || c = rbraceC || c = lbraceC then ([], c :: rest)
    else if c = '$' && rest.head? = some lbraceC then
      let inner := (rest.drop 1).takeWhile (fun x => !(x == rbraceC))
      let rest' := (rest.drop 1).dropWhile (fun x => !(x == rbraceC))
      match rest' with
      | [] => (c :: lbraceC :: inner, [])
      | _ :: rest'' =>
        let (v, r) := scanValue f rest''
        (c :: lbraceC :: (inner ++ rbraceC :: v), r)
    else
      let (v, r) := scanValue f rest
      (c :: v, r)

/-- Parse a run of contents (declarations, stray semicolons, nested blocks)
until an unmatched closing brace or the end of input; returns the parsed
items, the unconsumed input, and the current position. -/
def parseContents (b : Bindings) : Nat → List Char → Nat →
    Except ParseError (List ScopeContent × List Char × Nat)
  | 0, _, pos => .error ⟨.unbalancedBraces, pos⟩
  | f + 1, cs, pos =>
    let ws := cs.takeWhile isWs
    let cs1 := cs.dropWhile isWs
    let pos1 := pos + ws.length
    match cs1 with
    | [] => .ok ([], [], pos1)
    | c :: rest =>
      if c = rbraceC then .ok ([], cs1, pos1)
      else if c = ';' then parseContents b f rest (pos1 + 1)
      else
        let seg := cs1.takeWhile (fun x => !(isDelim x))
        let cs2 := cs1.dropWhile (fun x => !(isDelim x))
        let pos2 := pos1 + seg.length
        match cs2 with
        | [] => .error ⟨.missingColon, pos2⟩
        | d :: rest2 =>
          if d = ':' then
            let (valRaw, cs3) := scanValue (rest2.length + 1) rest2
            let pos3 := pos2 + 1 + valRaw.length
            match substInterp b (valRaw.length + 1) (trimChars valRaw) pos2 with
            | .error e => .error e
            | .ok value =>
              let consumeSemi : Bool :=
                match cs3 with
                | x :: _ => x = ';'
                | [] => false
              let cs4 := if consumeSemi then cs3.drop 1 else cs3
              let pos4 := if consumeSemi then pos3 + 1 else pos3
              match parseContents b f cs4 pos4 with
              | .error e => .error e
              | .ok (more, restF, posF) =>
                .ok (.decl (String.mk (trimChars seg)) value :: more, restF, posF)
          else if d = ';' then .error ⟨.missingColon, pos2⟩
          else if d = rbraceC then .error ⟨.missingColon, pos2⟩
          else
            match parseContents b f rest2 (pos2 + 1) with
            | .error e => .error e
            | .ok (inner, cs3, pos3) =>
              match cs3 with
              | [] => .error ⟨.unbalancedBraces, pos3⟩
              | x :: rest3 =>
                if x = rbraceC then
                  match parseContents b f rest3 (pos3 + 1) with
                  | .error e => .error e
                  | .ok (more, restF, posF) =>
                    .ok (.nested (String.mk (trimChars seg)) (toContentList inner) :: more,
                      restF, posF)
                else .error ⟨.unbalancedBraces, pos3⟩

/-- Tell apart declaration items from nested blocks. -/
def isDeclItem : ScopeContent → Bool
  | .decl _ _ => true
  | .nested _ _ => false

/-- Wrap a pending run of top-level declarations into a root scope. -/
def flushAcc (acc : List ScopeContent) : Scopes :=
  match acc with
  | [] => []
  | _ => [⟨"", toContentList acc.reverse⟩]

/-- Group top-level items: runs of bare declarations become root scopes, and
each top-level block becomes its own scope. -/
def groupGo : List ScopeContent → List ScopeContent → Scopes
  | acc, [] => flushAcc acc
  | acc, .decl p v :: rest => groupGo (.decl p v :: acc) rest
  | acc, .nested s cs :: rest => flushAcc acc ++ ⟨s, cs⟩ :: groupGo [] rest

/-- Modelled from the spec: `Parser::parse` (the parser module is not in the
source tree): pure, synchronous function from style source text plus
interpolation bindings to an AST or a structured parse error. -/
def Parser.parse (source : String) (b : Bindings) : Except ParseError Scopes :=
  match parseContents b (source.data.length + 1) source.data 0 with
  | .error e => .error e
  | .ok (items, rest, pos) =>
    match rest with
    | [] => .ok (groupGo [] items)
    | _ => .error ⟨.unbalancedBraces, pos⟩

instance {ε α : Type} [DecidableEq ε] [DecidableEq α] : DecidableEq (Except ε α) := fun x y =>
  match x, y with
  | .ok a, .ok b =>
    if h : a = b then .isTrue (by rw [h]) else .isFalse (by simp [h])
  | .error a, .error b =>
    if h : a = b then .isTrue (by rw [h]) else .isFalse (by simp [h])
  | .ok _, .error _ => .isFalse (by simp)
  | .error _, .ok _ => .isFalse (by simp)

/-- Modelled from the spec: `get_rand_str` (`crate::utils`, not in the source
tree) yields a sufficiently unique random suffix; modelled as consuming the
head of an explicit stream of suffixes. -/
def getRandStr (rands : List String) : String × List String :=
  match rands with
  | [] => ("rand", [])
  | r :: t => (r, t)

namespace Core

/-- Modelled from the spec: `StyleKey` (`crate::registry`, not in the source
tree) wraps the shared `Scopes` tree; equality and hashing are structural
over the tree's content. -/
structure StyleKey where
  scopes : Scopes
deriving DecidableEq

/-- `StyleContent` of `packages/stylist-core/src/style.rs`: the compiled
artifact.  `style_str` is the `OnceCell<String>` holding the lazily rendered
style text (`none` = not yet computed). -/
structure StyleContent where
  key : StyleKey
  class_name : String
  ast : Scopes
  style_str : Option String
deriving DecidableEq

/-- `Style` of `packages/stylist-core/src/style.rs`: a shared handle,
`Arc<StyleContent>` modelled as the identity of the content it points to. -/
structure Style where
  contentId : Nat
deriving DecidableEq

/-- The process-wide state threaded through the stylist-core operations: the
registry map (guarded by the global mutex), the heap of shared
`StyleContent` cells, the stream modelling random suffixes, and the
environment flags for a poisoned lock and a failing sink mount.  `mountLog`
records the class names mounted on the sink and `renderCount` the number of
times the renderer has run. -/
structure CoreState where
  registry : List (StyleKey × Style)
  contents : List (Nat × StyleContent)
  nextId : Nat
  rands : List String
  poisoned : Bool
  mountFails : Bool
  mountLog : List String
  renderCount : Nat
deriving DecidableEq

/-- Modelled from the spec: registry lookup (`reg.get(&key)`) — returns a
clone of the stored handle for an entry whose key is structurally equal. -/
def regGet (reg : List (StyleKey × Style)) (k : StyleKey) : Option Style :=
  match reg with
  | [] => none
  | (k', s) :: t => if k' = k then some s else regGet t k

/-- Modelled from the spec: `reg.unregister(key)` removes the entry for an
equal key if present. -/
def regUnregister (reg : List (StyleKey × Style)) (k : StyleKey) :
    List (StyleKey × Style) :=
  reg.filter (fun e => decide (¬ e.1 = k))

/-- Read a shared `StyleContent` cell from the heap. -/
def contentsGet (l : List (Nat × StyleContent)) (id : Nat) : Option StyleContent :=
  match l with
  | [] => none
  | (i, c) :: t => if i = id then some c else contentsGet t id

/-- Replace a shared `StyleContent` cell on the heap. -/
def contentsSet (l : List (Nat × StyleContent)) (id : Nat) (c : StyleContent) :
    List (Nat × StyleContent) :=
  match l with
  | [] => []
  | (i, c') :: t => if i = id then (i, c) :: t else (i, c') :: contentsSet t id c

/-- The panics the stylist-core operations can raise: `.lock().unwrap()` on a
poisoned mutex, and `mount().expect("Failed to mount")` on a sink failure. -/
inductive Panic : Type where
  | poisonedLock : Panic
  | mountFailed : Panic
deriving DecidableEq

/-- `Style::create_from_scopes_impl` of `packages/stylist-core/src/style.rs`
(the wasm build, whose `mount` call renders the style text and appends a
style element to the document head).  Wraps the css in a `StyleKey`, locks
the global registry with `.unwrap()` (panicking if the mutex is poisoned),
returns the cached handle on a structurally equal key, and otherwise builds
a fresh `StyleContent` with class name `format!("{}-{}", class_prefix,
get_rand_str())`, mounts it (panicking on sink failure, before anything is
registered), registers a clone keyed by the `StyleKey`, and returns the new
handle. -/
def create_from_scopes_impl (pfx : String) (css : Scopes) (st : CoreState) :
    Except Panic (Style × CoreState) :=
  let key : StyleKey := ⟨css⟩
  if st.poisoned then .error .poisonedLock
  else
    match regGet st.registry key with
    | some m => .ok (m, st)
    | none =>
      let suffix := (getRandStr st.rands).1
      let rands' := (getRandStr st.rands).2
      let class_name := pfx ++ "-" ++ suffix
      if st.mountFails then .error .mountFailed
      else
        let rendered := Scopes.to_css css class_name
        let content : StyleContent := ⟨key, class_name, css, some rendered⟩
        let new_style : Style := ⟨st.nextId⟩
        .ok (new_style,
          { st with
            registry := (key, new_style) :: st.registry
            contents := (st.nextId, content) :: st.contents
            nextId := st.nextId + 1
            rands := rands'
            mountLog := st.mountLog ++ [class_name]
            renderCount := st.renderCount + 1 })

/-- `Style::create_from_scopes`: monomorphic wrapper around
`create_from_scopes_impl` (the `Borrow<str>` generic only borrows the
prefix). -/
def create_from_scopes (pfx : String) (css : Scopes) (st : CoreState) :
    Except Panic (Style × CoreState) :=
  create_from_scopes_impl pfx css st

/-- The failure of a creation entry point that goes through `TryInto`:
either the conversion error, or a panic of the creation itself. -/
inductive CreateError (ε : Type) : Type where
  | tryIntoFailed (e : ε) : CreateError ε
  | panicked (p : Panic) : CreateError ε
deriving DecidableEq

/-- `Style::try_from_scopes`: converts its argument with `TryInto<Scopes>`
(the conversion outcome is the `tryCss` parameter), propagates the
conversion error with `?`, and otherwise creates the style with the default
class prefix `"stylist"`. -/
def try_from_scopes {ε : Type} (tryCss : Except ε Scopes) (st : CoreState) :
    Except (CreateError ε) (Style × CoreState) :=
  match tryCss with
  | .error e => .error (.tryIntoFailed e)
  | .ok css =>
    match create_from_scopes "stylist" css st with
    | .error p => .error (.panicked p)
    | .ok r => .ok r

/-- `Style::get_class_name` / `StyleContent::get_class_name`: a pure read of
the `class_name` field of the shared content. -/
def Style.get_class_name (s : Style) (st : CoreState) : Option String :=
  (contentsGet st.contents s.contentId).map (fun c => c.class_name)

/-- `StyleContent::get_style_str`, reached through `Style::get_style_str`:
`self.style_str.get_or_init(|| self.ast.to_css(self.get_class_name()))` —
returns the cached text if the `OnceCell` is filled, and otherwise runs the
renderer once, fills the cell, and returns the result.  The `OnceCell`
guarantees at-most-once initialization even under concurrent first access,
which justifies modelling each call as one atomic step on the shared
state. -/
def Style.get_style_str (s : Style) (st : CoreState) : Option (String × CoreState) :=
  match contentsGet st.contents s.contentId with
  | none => none
  | some c =>
    match c.style_str with
    | some str => some (str, st)
    | none =>
      let str := Scopes.to_css c.ast c.class_name
      some (str,
        { st with
          contents := contentsSet st.contents s.contentId { c with style_str := some str }
          renderCount := st.renderCount + 1 })

/-- `Style::unregister` of `packages/stylist-core/src/style.rs`: locks the
global registry with `.unwrap()` (panicking if the mutex is poisoned) and
removes the entry for this style's key. -/
def Style.unregister (s : Style) (st : CoreState) : Except Panic CoreState :=
  if st.poisoned then .error .poisonedLock
  else
    match contentsGet st.contents s.contentId with
    | none => .ok st
    | some c => .ok { st with registry := regUnregister st.registry c.key }

/-- A fresh process state with a given stream of random suffixes. -/
def initState (rands : List String) : CoreState :=
  ⟨[], [], 0, rands, false, false, [], 0⟩

end Core

namespace Old

/-- `Style` of `src/style/mod.rs` (non-wasm build): the designated class
name and the parsed AST; `ast` is `Option<Vec<Scope>>` because the non-wasm
`create` stores `Parser::parse(css).ok()`. -/
structure Style where
  class_name : String
  ast : Option Scopes
deriving DecidableEq

/-- The process-wide state of the old module: the `STYLE_REGISTRY` map from
class name to `Style` (`HashMap<String, Style>`), the stream modelling
random suffixes, and whether the global mutex is poisoned. -/
structure OldState where
  styles : List (String × Style)
  rands : List String
  poisoned : Bool
deriving DecidableEq

/-- Lock acquisition in the old module:
`match lock() { Ok(guard) => guard, Err(poisoned) => poisoned.into_inner() }`
— both arms yield the inner map, so a poisoned mutex is salvaged and the
operation proceeds with the recovered state. -/
def lockRegistry (st : OldState) : List (String × Style) := st.styles

/-- `HashMap::insert` keyed by the style's class name. -/
def insertStyle (m : List (String × Style)) (k : String) (v : Style) :
    List (String × Style) :=
  (k, v) :: m.filter (fun e => decide (¬ e.1 = k))

/-- Look up a registered style by class name. -/
def findStyle (m : List (String × Style)) (k : String) : Option Style :=
  match m with
  | [] => none
  | (k', v) :: t => if k' = k then some v else findStyle t k

/-- `Style::create` of `src/style/mod.rs` (the non-wasm build, lines
152-171): mints the class name `format!("{}-{}", class_name,
get_rand_str())` unconditionally, stores `Parser::parse(css).ok()` as the
AST (a parse error is dropped, leaving `ast = None`), salvages a poisoned
lock with `into_inner`, inserts the new style keyed by its class name, and
always returns `Ok`.  The old parser takes only the source text, so the
modelled parser is applied with no interpolation bindings. -/
def create (pfx css : String) (st : OldState) :
    Except ParseError (Style × OldState) :=
  let suffix := (getRandStr st.rands).1
  let rands' := (getRandStr st.rands).2
  let new_style : Style := ⟨pfx ++ "-" ++ suffix, (Parser.parse css []).toOption⟩
  let styles := lockRegistry st
  .ok (new_style,
    { st with
      styles := insertStyle styles new_style.class_name new_style
      rands := rands' })

/-- `Style::new`: creates a style with the default class prefix
`"stylist"`. -/
def new (css : String) (st : OldState) : Except ParseError (Style × OldState) :=
  create "stylist" css st

/-- A fresh process state with a given stream of random suffixes. -/
def initState (rands : List String) : OldState := ⟨[], rands, false⟩

end Old

namespace OldWasm

/-- A `<style/>` element as produced by `generate_element`: its `data-style`
attribute and its text content. -/
structure Element where
  dataStyle : String
  text : String
deriving DecidableEq

/-- `Style` of `src/style/mod.rs` (wasm build): class name, parsed AST, and
the optional style DOM node. -/
structure Style where
  class_name : String
  ast : Option Scopes
  node : Option Element
deriving DecidableEq

/-- The process-wide state of the old module's wasm build: the
`STYLE_REGISTRY` map, the random-suffix stream, the poisoned flag, the
environment flag for a failing DOM sink (`create_element` failing), and the
children of the document head. -/
structure WState where
  styles : List (String × Style)
  rands : List String
  poisoned : Bool
  sinkFails : Bool
  head : List Element
deriving DecidableEq

/-- `generate_css`: renders every scope of the AST with the class name and
folds the parts with a newline separator; an absent AST renders as the
empty string. -/
def generate_css (s : Style) : String :=
  match s.ast with
  | some ast =>
    (ast.map (fun sc => Scope.to_css sc s.class_name)).foldl
      (fun acc part => acc ++ "\n" ++ part) ""
  | none => ""

/-- `generate_element`: creates the style element carrying the class name
and the rendered css; fails when the DOM sink fails. -/
def generate_element (s : Style) (st : WState) : Except Unit Element :=
  if st.sinkFails then .error () else .ok ⟨s.class_name, generate_css s⟩

/-- `mount` of the wasm build: sets the node of a copy to
`generate_element().ok()` (a sink failure is swallowed, leaving the node
absent), appends the node to the document head when present, and returns
`self.clone()` — the handle as it was before the node was set (its own
`node` field, `None` at creation, is unchanged). -/
def mount (s : Style) (st : WState) : Style × WState :=
  let node := (generate_element s st).toOption
  match node with
  | some el => (s, { st with head := st.head ++ [el] })
  | none => (s, st)

/-- Lock acquisition: identical to the non-wasm build — a poisoned mutex is
salvaged with `into_inner` and the operation proceeds. -/
def lockRegistry (st : WState) : List (String × Style) := st.styles

/-- `HashMap::insert` keyed by the style's class name. -/
def insertStyle (m : List (String × Style)) (k : String) (v : Style) :
    List (String × Style) :=
  (k, v) :: m.filter (fun e => decide (¬ e.1 = k))

/-- Look up a registered style by class name. -/
def findStyle (m : List (String × Style)) (k : String) : Option Style :=
  match m with
  | [] => none
  | (k', v) :: t => if k' = k then some v else findStyle t k

/-- `Style::create` of `src/style/mod.rs` (the wasm build, lines 67-91):
propagates a parse error with `?`, mints the fresh class name, mounts the
style (sink failures are swallowed by `.ok()`), and inserts the style into
the registry keyed by its class name regardless of whether the mount
succeeded. -/
def create (pfx css : String) (st : WState) :
    Except ParseError (Style × WState) :=
  match Parser.parse css [] with
  | .error e => .error e
  | .ok ast =>
    let suffix := (getRandStr st.rands).1
    let rands' := (getRandStr st.rands).2
    let new_style : Style := ⟨pfx ++ "-" ++ suffix, some ast, none⟩
    let mounted := mount new_style { st with rands := rands' }
    let new_style := mounted.1
    let st1 := mounted.2
    let styles := lockRegistry st1
    .ok (new_style,
      { st1 with styles := insertStyle styles new_style.class_name new_style })

/-- A fresh wasm-build state; `sinkFails` configures the DOM sink. -/
def initState (rands : List String) (sinkFails : Bool) : WState :=
  ⟨[], rands, false, sinkFails, []⟩

end OldWasm

namespace Rc

/-- The reference-count lifecycle of one compiled artifact
(`Arc<StyleContent>` in `packages/stylist-core/src/style.rs`): the strong
count, whether the registry still holds its clone of the handle
(`reg.register(new_style.clone())`), and how many times the sink's unmount
has run (`impl Drop for StyleContent` calls `unmount` when the strong count
reaches zero). -/
structure RcState where
  rc : Nat
  registered : Bool
  unmounts : Nat
deriving DecidableEq

/-- The state right after `create_from_scopes_impl` returns on a cache miss:
the caller's handle plus the registry's clone. -/
def init : RcState := ⟨2, true, 0⟩

/-- Handles held outside the registry. -/
def callerHandles (s : RcState) : Nat := s.rc - (if s.registered then 1 else 0)

/-- The operations on a live artifact: cloning a handle, dropping a handle,
and `Style::unregister`. -/
inductive RcOp : Type where
  | cloneHandle : RcOp
  | dropHandle : RcOp
  | unregister : RcOp
deriving DecidableEq

/-- An operation is valid when a caller-held handle exists to perform it on
(`Style` methods take `&self`, and only caller-held handles are cloned or
dropped by callers). -/
def validOp (s : RcState) : RcOp → Bool
  | .cloneHandle => decide (1 ≤ callerHandles s)
  | .dropHandle => decide (1 ≤ callerHandles s)
  | .unregister => decide (1 ≤ callerHandles s)

/-- One atomic lifecycle step.  Dropping a handle decrements the strong
count and, exactly when it reaches zero, `Drop for StyleContent` unmounts
the style.  `unregister` removes the registry entry if present, dropping the
registry's clone — with the same last-owner rule. -/
def step (s : RcState) : RcOp → RcState
  | .cloneHandle => { s with rc := s.rc + 1 }
  | .dropHandle =>
    let rc' := s.rc - 1
    { s with rc := rc', unmounts := if rc' = 0 then s.unmounts + 1 else s.unmounts }
  | .unregister =>
    if s.registered then
      let rc' := s.rc - 1
      ⟨rc', false, if rc' = 0 then s.unmounts + 1 else s.unmounts⟩
    else s

/-- Run a sequence of lifecycle operations. -/
def run (s : RcState) : List RcOp → RcState
  | [] => s
  | op :: t => run (step s op) t

/-- A trace is valid when every operation is valid in the state it is
applied to. -/
def validTrace (s : RcState) : List RcOp → Bool
  | [] => true
  | op :: t => validOp s op && validTrace (step s op) t

end Rc

/-- A sample AST used by concrete runs: the parse of `color: red;`. -/
def cssSample : Scopes := [⟨"", .cons (.decl "color" "red") .nil⟩]

/-- A sample well-formed style source text. -/
def cssRed : String := "color: red;"

/-- Whether `s` starts with `p`, compared character by character. -/
def strStartsWith (p s : String) : Bool := p.data.isPrefixOf s.data

/-- The lifecycle invariant behind the teardown claims: the sink has been
unmounted exactly once iff the strong count reached zero, and a registered
artifact always keeps at least the registry's handle alive. -/
def InvC4 (s : Rc.RcState) : Prop :=
  (s.unmounts = if s.rc = 0 then 1 else 0) ∧ (s.registered = true → 1 ≤ s.rc)

/-- The lifecycle invariant for unregister-free traces: the artifact stays
registered, at least one handle remains, and the sink is never unmounted. -/
def JC9 (s : Rc.RcState) : Prop :=
  s.registered = true ∧ 1 ≤ s.rc ∧ s.unmounts = 0

/-- The handle returned by the first concrete stylist-core creation run. -/
def c1Style1 : Core.Style := ⟨0⟩

/-- The state after the first concrete stylist-core creation run. -/
def c1State1 : Core.CoreState :=
  match Core.create_from_scopes_impl "btn" cssSample (Core.initState ["a", "b"]) with
  | .ok r => r.2
  | .error _ => Core.initState []

/-- A fresh old-module state with two pending random suffixes. -/
def c1OldSt0 : Old.OldState := Old.initState ["a", "b"]

/-- The old-module state after one `Style::create` call. -/
def c1OldSt1 : Old.OldState :=
  match Old.create "btn" cssRed c1OldSt0 with
  | .ok r => r.2
  | .error _ => c1OldSt0

/-- A stylist-core state holding one compiled content whose rendered-text
cell is still empty. -/
def c3St : Core.CoreState :=
  ⟨[], [(0, ⟨⟨cssSample⟩, "stylist-a", cssSample, none⟩)], 1, [], false, false, [], 0⟩

/-- The rendering of the sample AST against the class name of `c3St`. -/
def c3Str : String := Scopes.to_css cssSample "stylist-a"

/-- The state after the first `get_style_str` call on `c3St`. -/
def c3St1 : Core.CoreState :=
  match Core.Style.get_style_str ⟨0⟩ c3St with
  | some r => r.2
  | none => c3St

/-- A concrete lifecycle trace: clone one handle, then drop it. -/
def c4Ops : List Rc.RcOp := [.cloneHandle, .dropHandle]

/-- A stylist-core state whose global registry mutex is poisoned. -/
def c5St : Core.CoreState := { Core.initState ["a"] with poisoned := true }

/-- An old-module state whose global registry mutex is poisoned. -/
def c5StO : Old.OldState := { Old.initState ["a"] with poisoned := true }

/-- A stylist-core state whose sink fails to mount. -/
def c6CoreSt : Core.CoreState := { Core.initState ["a"] with mountFails := true }

/-- An old-module wasm state whose DOM sink fails. -/
def c6WSt : OldWasm.WState := OldWasm.initState ["a"] true

/-- A fresh stylist-core state whose next random suffix is `abc123`. -/
def c7St : Core.CoreState := Core.initState ["abc123"]

/-- The state after creating the sample style with class prefix `btn`. -/
def c7St' : Core.CoreState :=
  match Core.create_from_scopes_impl "btn" cssSample c7St with
  | .ok r => r.2
  | .error _ => c7St

/-- A second old-module state, with a different registry, random stream and
poison flag than `Old.initState ["x"]`. -/
def c8OldSt2 : Old.OldState := ⟨[("k-x", ⟨"k-x", none⟩)], ["y"], true⟩

/-- The result of `Style::create` for the sample source from one state. -/
def c8R1 : Old.Style × Old.OldState :=
  match Old.create "a" cssRed (Old.initState ["x"]) with
  | .ok r => r
  | .error _ => (⟨"", none⟩, Old.initState [])

/-- The result of `Style::create` for the sample source from another
state. -/
def c8R2 : Old.Style × Old.OldState :=
  match Old.create "b" cssRed c8OldSt2 with
  | .ok r => r
  | .error _ => (⟨"", none⟩, Old.initState [])

/-- A concrete lifecycle trace that never unregisters: clone once and drop
both caller handles. -/
def c9Ops : List Rc.RcOp := [.cloneHandle, .dropHandle, .dropHandle]

/-- A fresh stylist-core state with two pending random suffixes. -/
def c10St0 : Core.CoreState := Core.initState ["r1", "r2"]

/-- The state after creating the sample style with class prefix `custom`. -/
def c10St1 : Core.CoreState :=
  match Core.create_from_scopes "custom" cssSample c10St0 with
  | .ok r => r.2
  | .error _ => c10St0

/-- A fresh stylist-core state whose next random suffix is `w`. -/
def c10WSt : Core.CoreState := Core.initState ["w"]

/-- The state after `try_from_scopes` on a fresh registry. -/
def c10WSt' : Core.CoreState :=
  match Core.try_from_scopes (.ok cssSample : Except Unit Scopes) c10WSt with
  | .ok r => r.2
  | .error _ => c10WSt

/-- A fresh old-module state whose next random suffix is `v`. -/
def c10OldSt : Old.OldState := Old.initState ["v"]

/-- The result of `Style::new` on `c10OldSt`. -/
def c10OldR : Old.Style × Old.OldState :=
  match Old.new cssRed c10OldSt with
  | .ok r => r
  | .error _ => (⟨"", none⟩, Old.initState [])

theorem contentsGet_contentsSet (l : List (Nat × Core.StyleContent)) (id : Nat)
    (c c' : Core.StyleContent) (h : Core.contentsGet l id = some c) :
    Core.contentsGet (Core.contentsSet l id c') id = some c' := by
  induction l with
  | nil => simp [Core.contentsGet] at h
  | cons hd t ih =>
    obtain ⟨i, cc⟩ := hd
    by_cases hi : i = id
    · simp [Core.contentsGet, Core.contentsSet, hi]
    · simp only [Core.contentsGet, Core.contentsSet, hi, if_false] at h ⊢
      exact ih h

theorem get_class_name_stable (s : Core.Style) (st : Core.CoreState) (str : String)
    (st2 : Core.CoreState) (h : Core.Style.get_style_str s st = some (str, st2)) :
    Core.Style.get_class_name s st2 = Core.Style.get_class_name s st := by
  unfold Core.Style.get_style_str at h
  cases hg : Core.contentsGet st.contents s.contentId with
  | none => rw [hg] at h; exact absurd h (by simp)
  | some c =>
    simp only [hg] at h
    cases hc : c.style_str with
    | some s0 =>
      simp only [hc] at h
      rw [Option.some.injEq, Prod.mk.injEq] at h
      rw [← h.2]
    | none =>
      simp only [hc] at h
      rw [Option.some.injEq, Prod.mk.injEq] at h
      rw [← h.2]
      unfold Core.Style.get_class_name
      rw [contentsGet_contentsSet st.contents s.contentId c _ hg, hg]
      rfl

theorem invC4_step (s : Rc.RcState) (op : Rc.RcOp) (hI : InvC4 s)
    (hv : Rc.validOp s op = true) : InvC4 (Rc.step s op) := by
  obtain ⟨rc, reg, um⟩ := s
  obtain ⟨h1, h2⟩ := hI
  dsimp only at h1 h2
  unfold InvC4
  cases op with
  | cloneHandle =>
    simp only [Rc.validOp, Rc.callerHandles, decide_eq_true_eq] at hv
    dsimp only at hv
    have hrc : 1 ≤ rc := le_trans hv (Nat.sub_le _ _)
    have h1' : um = 0 := by
      rw [if_neg (by omega)] at h1
      exact h1
    constructor
    · show um = if rc + 1 = 0 then 1 else 0
      rw [if_neg (by omega)]
      exact h1'
    · intro _
      show 1 ≤ rc + 1
      omega
  | dropHandle =>
    simp only [Rc.validOp, Rc.callerHandles, decide_eq_true_eq] at hv
    dsimp only at hv
    have hrc : 1 ≤ rc := le_trans hv (Nat.sub_le _ _)
    have h1' : um = 0 := by
      rw [if_neg (by omega)] at h1
      exact h1
    constructor
    · show (if rc - 1 = 0 then um + 1 else um) = if rc - 1 = 0 then 1 else 0
      by_cases hz : rc - 1 = 0
      · rw [if_pos hz, if_pos hz, h1']
      · rw [if_neg hz, if_neg hz]
        exact h1'
    · intro hr
      have hr' : reg = true := hr
      rw [if_pos hr'] at hv
      show 1 ≤ rc - 1
      omega
  | unregister =>
    simp only [Rc.validOp, Rc.callerHandles, decide_eq_true_eq] at hv
    dsimp only at hv
    have hrc : 1 ≤ rc := le_trans hv (Nat.sub_le _ _)
    have h1' : um = 0 := by
      rw [if_neg (by omega)] at h1
      exact h1
    show ((if reg = true then
        (⟨rc - 1, false, if rc - 1 = 0 then um + 1 else um⟩ : Rc.RcState)
      else ⟨rc, reg, um⟩).unmounts =
        if (if reg = true then
            (⟨rc - 1, false, if rc - 1 = 0 then um + 1 else um⟩ : Rc.RcState)
          else ⟨rc, reg, um⟩).rc = 0 then 1 else 0) ∧
      ((if reg = true then
          (⟨rc - 1, false, if rc - 1 = 0 then um + 1 else um⟩ : Rc.RcState)
        else ⟨rc, reg, um⟩).registered = true →
        1 ≤ (if reg = true then
            (⟨rc - 1, false, if rc - 1 = 0 then um + 1 else um⟩ : Rc.RcState)
          else ⟨rc, reg, um⟩).rc)
    by_cases hr : reg = true
    · rw [if_pos hr]
      rw [if_pos hr] at hv
      dsimp only
      have hz : ¬ rc - 1 = 0 := by omega
      constructor
      · rw [if_neg hz, if_neg hz]
        exact h1'
      · intro hcon
        simp at hcon
    · rw [if_neg hr]
      exact ⟨h1, h2⟩

theorem invC4_run (s : Rc.RcState) (ops : List Rc.RcOp) (hI : InvC4 s)
    (hv : Rc.validTrace s ops = true) : InvC4 (Rc.run s ops) := by
  induction ops generalizing s with
  | nil => exact hI
  | cons op t ih =>
    unfold Rc.validTrace at hv
    rw [Bool.and_eq_true] at hv
    exact ih (Rc.step s op) (invC4_step s op hI hv.1) hv.2

theorem jc9_step (s : Rc.RcState) (op : Rc.RcOp) (hJ : JC9 s)
    (hv : Rc.validOp s op = true) (hne : ¬ op = .unregister) : JC9 (Rc.step s op) := by
  obtain ⟨rc, reg, um⟩ := s
  obtain ⟨h1, h2, h3⟩ := hJ
  dsimp only at h1 h2 h3
  unfold JC9
  cases op with
  | cloneHandle =>
    refine ⟨h1, ?_, h3⟩
    show 1 ≤ rc + 1
    omega
  | dropHandle =>
    simp only [Rc.validOp, Rc.callerHandles, decide_eq_true_eq] at hv
    dsimp only at hv
    rw [if_pos h1] at hv
    have hz : ¬ rc - 1 = 0 := by omega
    refine ⟨h1, ?_, ?_⟩
    · show 1 ≤ rc - 1
      omega
    · show (if rc - 1 = 0 then um + 1 else um) = 0
      rw [if_neg hz]
      exact h3
  | unregister => exact absurd rfl hne

theorem jc9_run (s : Rc.RcState) (ops : List Rc.RcOp) (hJ : JC9 s)
    (hv : Rc.validTrace s ops = true) (hni : Rc.RcOp.unregister ∉ ops) :
    JC9 (Rc.run s ops) := by
  induction ops generalizing s with
  | nil => exact hJ
  | cons op t ih =>
    unfold Rc.validTrace at hv
    rw [Bool.and_eq_true] at hv
    rw [List.mem_cons, not_or] at hni
    have hop : ¬ op = .unregister := fun e => hni.1 e.symm
    exact ih (Rc.step s op) (jc9_step s op hJ hv.1 hop) hv.2 hni.2

theorem isPrefixOf_append_self (l t : List Char) : l.isPrefixOf (l ++ t) = true := by
  induction l with
  | nil => simp [List.isPrefixOf]
  | cons a s ih => simp [List.isPrefixOf, ih]

theorem strStartsWith_append (x : String) :
    strStartsWith "stylist-" ("stylist" ++ "-" ++ x) = true := by
  have h : "stylist" ++ "-" = "stylist-" := by decide
  rw [h]
  unfold strStartsWith
  rw [String.data_append]
  exact isPrefixOf_append_self _ _

/-- C1 (amended): on the stylist-core creation path
(`Style::create_from_scopes` / `create_from_scopes_impl`), once a creation
call has returned a handle, a second creation call with a structurally equal
AST returns the very same handle — hence the same underlying artifact and an
identical class name — and leaves the whole state unchanged: no new
compilation, no new sink mount, no new registration.  The old module's
`Style::create` does not have this property (see the counterexample). -/
theorem create_cache_hit_returns_same_artifact (st : Core.CoreState) (p1 p2 : String)
    (css1 css2 : Scopes) (s1 : Core.Style) (st1 : Core.CoreState) (heq : css1 = css2)
    (h1 : Core.create_from_scopes_impl p1 css1 st = .ok (s1, st1)) :
    Core.create_from_scopes_impl p2 css2 st1 = .ok (s1, st1) := by
  subst heq
  unfold Core.create_from_scopes_impl at h1 ⊢
  by_cases hp : st.poisoned = true
  · simp [hp] at h1
  · simp only [Bool.not_eq_true] at hp
    simp only [hp, Bool.false_eq_true, if_false] at h1
    cases hreg : Core.regGet st.registry ⟨css1⟩ with
    | some m =>
      rw [hreg] at h1
      rw [Except.ok.injEq, Prod.mk.injEq] at h1
      obtain ⟨hm, hst⟩ := h1
      subst hst
      simp only [hp, Bool.false_eq_true, if_false, hreg, hm]
    | none =>
      rw [hreg] at h1
      by_cases hmf : st.mountFails = true
      · simp [hmf] at h1
      · simp only [Bool.not_eq_true] at hmf
        simp only [hmf, Bool.false_eq_true, if_false] at h1
        rw [Except.ok.injEq, Prod.mk.injEq] at h1
        obtain ⟨hs, hst⟩ := h1
        subst hst
        subst hs
        simp only [hp, Bool.false_eq_true, if_false]
        unfold Core.regGet
        simp

/-- C1 witness: a concrete run — after creating `color: red;` once with
class prefix `btn`, creating it again returns the same handle and the same
state. -/
theorem create_cache_hit_returns_same_artifact_witness :
    Core.create_from_scopes_impl "btn" cssSample c1State1 = .ok (c1Style1, c1State1) :=
  create_cache_hit_returns_same_artifact (Core.initState ["a", "b"]) "btn" "btn"
    cssSample cssSample c1Style1 c1State1 rfl (by decide)

/-- C1 counterexample: the claim names `Style::create` among the creation
operations, but the old module's `Style::create` never deduplicates —
two calls with the identical source text (hence structurally equal parsed
ASTs) return styles with different class names (`btn-a` and `btn-b`), so the
handles do not reference one artifact with an identical class name. -/
theorem old_create_never_dedups_cex :
    (Old.create "btn" cssRed c1OldSt0).map (fun r => r.1.class_name) = .ok "btn-a" ∧
    Old.create "btn" cssRed c1OldSt0 = .ok (⟨"btn-a", some cssSample⟩, c1OldSt1) ∧
    (Old.create "btn" cssRed c1OldSt1).map (fun r => r.1.class_name) = .ok "btn-b" ∧
    ¬ ("btn-a" = "btn-b") := by decide

/-- C2 (amended): when parsing fails, the wasm `Style::create` of the old
module propagates the parse error to the caller, but the non-wasm
`Style::create` swallows it with `.ok()` and returns a successfully
constructed handle whose AST is `None`. -/
theorem parse_error_wasm_propagates_nonwasm_swallows (p css : String) (e : ParseError)
    (stw : OldWasm.WState) (st : Old.OldState)
    (h : Parser.parse css [] = .error e) :
    OldWasm.create p css stw = .error e ∧
    (Old.create p css st).map (fun r => r.1.ast) = .ok (none : Option Scopes) := by
  constructor
  · unfold OldWasm.create
    rw [h]
  · simp [Old.create, h, Except.map, Except.toOption]

/-- C2 witness: on the malformed input `color red;` the wasm create returns
the missing-colon parse error and the non-wasm create returns a style with
no AST. -/
theorem parse_error_wasm_propagates_nonwasm_swallows_witness :
    OldWasm.create "stylist" "color red;" (OldWasm.initState ["a"] false) =
      .error ⟨.missingColon, 9⟩ ∧
    (Old.create "stylist" "color red;" (Old.initState ["a"])).map (fun r => r.1.ast) =
      .ok (none : Option Scopes) :=
  parse_error_wasm_propagates_nonwasm_swallows "stylist" "color red;"
    ⟨.missingColon, 9⟩ (OldWasm.initState ["a"] false) (Old.initState ["a"]) (by decide)

/-- C2 counterexample: `color red;` is malformed (its parse is a
missing-colon error), yet the non-wasm `Style::create` returns `Ok` — a
successfully constructed handle despite the parse failure, contradicting the
claim that the parse error is always returned to the caller. -/
theorem old_create_ok_on_malformed_cex :
    Parser.parse "color red;" [] = .error ⟨.missingColon, 9⟩ ∧
    (Old.create "stylist" "color red;" (Old.initState ["a"])).isOk = true ∧
    (Old.create "stylist" "color red;" (Old.initState ["a"])).map (fun r => r.1.ast) =
      .ok (none : Option Scopes) := by decide

/-- C3: `get_style_str` memoizes the rendering in the content's `OnceCell`:
after a first call returns `(str1, st1)`, a second call returns exactly the
same string and leaves the state unchanged (so any number of further calls
do too), the renderer ran at most once across the first call, and the cell
permanently holds the rendered text.  Each call is one atomic step on the
shared state, which is faithful to `OnceCell::get_or_init`'s guarantee of
at-most-once initialization even under concurrent first access. -/
theorem get_style_str_renders_at_most_once (st : Core.CoreState) (s : Core.Style)
    (str1 : String) (st1 : Core.CoreState)
    (h : Core.Style.get_style_str s st = some (str1, st1)) :
    Core.Style.get_style_str s st1 = some (str1, st1) ∧
    st1.renderCount ≤ st.renderCount + 1 ∧
    (Core.contentsGet st1.contents s.contentId).map (fun c => c.style_str) =
      some (some str1) := by
  unfold Core.Style.get_style_str at h
  cases hg : Core.contentsGet st.contents s.contentId with
  | none => rw [hg] at h; exact absurd h (by simp)
  | some c =>
    simp only [hg] at h
    cases hc : c.style_str with
    | some s0 =>
      simp only [hc] at h
      rw [Option.some.injEq, Prod.mk.injEq] at h
      obtain ⟨h1, h2⟩ := h
      subst h1
      subst h2
      refine ⟨?_, Nat.le_succ _, ?_⟩
      · unfold Core.Style.get_style_str
        simp only [hg, hc]
      · rw [hg]
        simp [hc]
    | none =>
      simp only [hc] at h
      rw [Option.some.injEq, Prod.mk.injEq] at h
      obtain ⟨h1, h2⟩ := h
      subst h1
      subst h2
      have hset := contentsGet_contentsSet st.contents s.contentId c
        { c with style_str := some (Scopes.to_css c.ast c.class_name) } hg
      refine ⟨?_, Nat.le_refl _, ?_⟩
      · unfold Core.Style.get_style_str
        simp only [hset]
      · rw [hset]
        rfl

/-- C3 witness: a concrete content with an empty cell — the second
`get_style_str` call returns the identical cached string with the state
unchanged, and the render count rose by at most one. -/
theorem get_style_str_renders_at_most_once_witness :
    Core.Style.get_style_str ⟨0⟩ c3St1 = some (c3Str, c3St1) ∧
    c3St1.renderCount ≤ c3St.renderCount + 1 ∧
    (Core.contentsGet c3St1.contents (Core.Style.mk 0).contentId).map
      (fun c => c.style_str) = some (some c3Str) :=
  get_style_str_renders_at_most_once c3St ⟨0⟩ c3Str c3St1 (by decide)

/-- C4: along every valid lifecycle trace from creation (caller handle plus
registry clone), the sink's unmount has run exactly once iff the strong
count reached zero and has never run while any handle remains; moreover,
calling `unregister` while the artifact is registered and another handle
still exists removes the registry entry without invoking unmount. -/
theorem unregister_defers_unmount_to_last_handle (ops : List Rc.RcOp)
    (h : Rc.validTrace Rc.init ops = true) :
    ((Rc.run Rc.init ops).unmounts = if (Rc.run Rc.init ops).rc = 0 then 1 else 0) ∧
    (¬ (Rc.run Rc.init ops).rc = 0 → (Rc.run Rc.init ops).unmounts = 0) ∧
    ((Rc.run Rc.init ops).registered = true →
      1 ≤ Rc.callerHandles (Rc.run Rc.init ops) →
      (Rc.step (Rc.run Rc.init ops) .unregister).registered = false ∧
      (Rc.step (Rc.run Rc.init ops) .unregister).unmounts =
        (Rc.run Rc.init ops).unmounts) := by
  have hI : InvC4 (Rc.run Rc.init ops) := invC4_run Rc.init ops ⟨by decide, by decide⟩ h
  obtain ⟨h1, h2⟩ := hI
  refine ⟨h1, ?_, ?_⟩
  · intro hne
    rw [h1, if_neg hne]
  · intro hr hch
    rcases hrun : Rc.run Rc.init ops with ⟨rc, reg, um⟩
    rw [hrun] at h1 hr hch
    dsimp only at h1 hr
    unfold Rc.callerHandles at hch
    dsimp only at hch
    rw [if_pos hr] at hch
    show ((if reg = true then
        (⟨rc - 1, false, if rc - 1 = 0 then um + 1 else um⟩ : Rc.RcState)
      else ⟨rc, reg, um⟩).registered = false) ∧
      ((if reg = true then
          (⟨rc - 1, false, if rc - 1 = 0 then um + 1 else um⟩ : Rc.RcState)
        else ⟨rc, reg, um⟩).unmounts = um)
    rw [if_pos hr]
    dsimp only
    refine ⟨rfl, ?_⟩
    rw [if_neg (by omega)]

/-- C4 witness: the trace clone-then-drop leaves one caller handle plus the
registry clone; the unmount count is zero and an unregister step at that
point removes the entry without unmounting. -/
theorem unregister_defers_unmount_to_last_handle_witness :
    ((Rc.run Rc.init c4Ops).unmounts = if (Rc.run Rc.init c4Ops).rc = 0 then 1 else 0) ∧
    (¬ (Rc.run Rc.init c4Ops).rc = 0 → (Rc.run Rc.init c4Ops).unmounts = 0) ∧
    ((Rc.run Rc.init c4Ops).registered = true →
      1 ≤ Rc.callerHandles (Rc.run Rc.init c4Ops) →
      (Rc.step (Rc.run Rc.init c4Ops) .unregister).registered = false ∧
      (Rc.step (Rc.run Rc.init c4Ops) .unregister).unmounts =
        (Rc.run Rc.init c4Ops).unmounts) :=
  unregister_defers_unmount_to_last_handle c4Ops (by decide)

/-- C5 (amended): only the old module's registry operations recover from a
poisoned lock — `Style::create` there proceeds with the salvaged state
(`poisoned.into_inner()`) and still registers the new style — while the
stylist-core operations (`create_from_scopes_impl`, `Style::unregister`)
call `.lock().unwrap()` and panic when the mutex is poisoned, so style
creation does not remain available on that path. -/
theorem poison_recovery_old_only (p css : String) (cssA : Scopes) (st : Core.CoreState)
    (s : Core.Style) (stO : Old.OldState)
    (hpc : st.poisoned = true) (hpo : stO.poisoned = true) :
    Core.create_from_scopes_impl p cssA st = .error .poisonedLock ∧
    Core.Style.unregister s st = .error .poisonedLock ∧
    (Old.create p css stO).map
      (fun r => (Old.findStyle r.2.styles r.1.class_name).isSome) = .ok true := by
  refine ⟨?_, ?_, ?_⟩
  · unfold Core.create_from_scopes_impl
    simp [hpc]
  · unfold Core.Style.unregister
    simp [hpc]
  · simp [Old.create, Old.lockRegistry, Except.map, Old.insertStyle, Old.findStyle]

/-- C5 witness: with the poisoned flag set, the stylist-core operations
panic while the old create completes and registers its style. -/
theorem poison_recovery_old_only_witness :
    Core.create_from_scopes_impl "stylist" cssSample c5St = .error .poisonedLock ∧
    Core.Style.unregister ⟨0⟩ c5St = .error .poisonedLock ∧
    (Old.create "stylist" cssRed c5StO).map
      (fun r => (Old.findStyle r.2.styles r.1.class_name).isSome) = .ok true :=
  poison_recovery_old_only "stylist" cssRed cssSample c5St ⟨0⟩ c5StO rfl rfl

/-- C5 counterexample: with the registry mutex poisoned, the stylist-core
creation and unregistration operations do not recover by proceeding with the
salvaged state — they propagate the failure as a panic
(`.lock().unwrap()`), contradicting the claim for "every registry
operation". -/
theorem core_ops_panic_on_poisoned_lock_cex :
    Core.create_from_scopes_impl "stylist" cssSample c5St = .error .poisonedLock ∧
    Core.Style.unregister ⟨0⟩ c5St = .error .poisonedLock := by decide

/-- C6 (amended): when the sink's mount fails on a cache miss, stylist-core's
creation panics (`mount().expect("Failed to mount")`) before anything is
registered, so no handle is returned and no registry entry is left behind;
the old wasm `Style::create`, by contrast, swallows the mount failure
(`generate_element().ok()`), still registers the style, and returns it as if
active, with nothing appended to the document head. -/
theorem mount_failure_core_aborts_old_wasm_swallows (p cssStr : String) (css : Scopes)
    (st : Core.CoreState) (stw : OldWasm.WState)
    (hm : st.mountFails = true) (hp : st.poisoned = false)
    (hreg : Core.regGet st.registry ⟨css⟩ = none)
    (hs : stw.sinkFails = true) (hok : (Parser.parse cssStr []).isOk = true) :
    Core.create_from_scopes_impl p css st = .error .mountFailed ∧
    (OldWasm.create p cssStr stw).isOk = true ∧
    (OldWasm.create p cssStr stw).map (fun r => r.2.head) = .ok stw.head := by
  refine ⟨?_, ?_, ?_⟩
  · unfold Core.create_from_scopes_impl
    simp [hp, hreg, hm]
  · unfold OldWasm.create
    cases hpp : Parser.parse cssStr [] with
    | error e => rw [hpp] at hok; simp [Except.isOk, Except.toBool] at hok
    | ok ast =>
      simp [OldWasm.mount, OldWasm.generate_element, hs, Except.toOption, Except.isOk,
        Except.toBool]
  · unfold OldWasm.create
    cases hpp : Parser.parse cssStr [] with
    | error e => rw [hpp] at hok; simp [Except.isOk, Except.toBool] at hok
    | ok ast =>
      simp [OldWasm.mount, OldWasm.generate_element, hs, Except.toOption, Except.map,
        OldWasm.lockRegistry]

/-- C6 witness: with a failing sink, the stylist-core creation aborts with
the mount panic while the old wasm creation succeeds with an unchanged
document head. -/
theorem mount_failure_core_aborts_old_wasm_swallows_witness :
    Core.create_from_scopes_impl "stylist" cssSample c6CoreSt = .error .mountFailed ∧
    (OldWasm.create "stylist" cssRed c6WSt).isOk = true ∧
    (OldWasm.create "stylist" cssRed c6WSt).map (fun r => r.2.head) = .ok c6WSt.head :=
  mount_failure_core_aborts_old_wasm_swallows "stylist" cssRed cssSample c6CoreSt c6WSt
    rfl rfl rfl rfl (by decide)

/-- C6 counterexample: with the DOM sink failing, the old wasm
`Style::create` still returns `Ok`, registers `btn-a` in the registry, and
appends nothing to the document head — the failure is not propagated and
the entry is not rolled back, contradicting the claim. -/
theorem old_wasm_registers_despite_mount_failure_cex :
    (OldWasm.create "btn" cssRed c6WSt).isOk = true ∧
    (OldWasm.create "btn" cssRed c6WSt).map
      (fun r => (OldWasm.findStyle r.2.styles "btn-a").isSome) = .ok true ∧
    (OldWasm.create "btn" cssRed c6WSt).map (fun r => r.2.head) = .ok [] := by decide

/-- C7: on a cache miss (healthy lock and sink), the created style's class
name is exactly the supplied class prefix, a hyphen, and the freshly drawn
random suffix, and the class-name accessor keeps returning that string
unchanged after the only state-mutating accessor (`get_style_str`) runs. -/
theorem fresh_class_name_format_and_stability (p : String) (css : Scopes)
    (st : Core.CoreState) (s : Core.Style) (st' : Core.CoreState)
    (hp : st.poisoned = false) (hm : st.mountFails = false)
    (hreg : Core.regGet st.registry ⟨css⟩ = none)
    (h : Core.create_from_scopes_impl p css st = .ok (s, st')) :
    Core.Style.get_class_name s st' = some (p ++ "-" ++ (getRandStr st.rands).1) ∧
    ∀ (str : String) (st2 : Core.CoreState),
      Core.Style.get_style_str s st' = some (str, st2) →
      Core.Style.get_class_name s st2 = Core.Style.get_class_name s st' := by
  unfold Core.create_from_scopes_impl at h
  simp only [hp, hm, Bool.false_eq_true, if_false, hreg] at h
  rw [Except.ok.injEq, Prod.mk.injEq] at h
  obtain ⟨hs, hst⟩ := h
  subst hs
  subst hst
  constructor
  · unfold Core.Style.get_class_name Core.contentsGet
    simp
  · intro str st2 hgs
    exact get_class_name_stable _ _ _ _ hgs

/-- C7 witness: the spec's example scenario — prefix `btn` with mocked
suffix `abc123` yields the class name `btn-abc123`, stable across a
`get_style_str` call. -/
theorem fresh_class_name_format_and_stability_witness :
    Core.Style.get_class_name ⟨0⟩ c7St' = some ("btn" ++ "-" ++ (getRandStr c7St.rands).1) ∧
    (∀ (str : String) (st2 : Core.CoreState),
      Core.Style.get_style_str ⟨0⟩ c7St' = some (str, st2) →
      Core.Style.get_class_name ⟨0⟩ st2 = Core.Style.get_class_name ⟨0⟩ c7St') :=
  fresh_class_name_format_and_stability "btn" cssSample c7St ⟨0⟩ c7St' rfl rfl rfl
    (by decide)

/-- C8: parsing is deterministic — `Parser.parse` is a pure function of the
source text and the bindings, so repeated calls yield structurally identical
ASTs; in particular the AST stored by `Style::create` does not depend on the
ambient registry, random stream, or lock state. -/
theorem parse_is_deterministic (src : String) (b : Bindings) (p1 p2 : String)
    (st1 st2 : Old.OldState) (r1 r2 : Old.Style × Old.OldState)
    (h1 : Old.create p1 src st1 = .ok r1) (h2 : Old.create p2 src st2 = .ok r2) :
    Parser.parse src b = Parser.parse src b ∧ r1.1.ast = r2.1.ast := by
  refine ⟨rfl, ?_⟩
  unfold Old.create at h1 h2
  rw [Except.ok.injEq] at h1 h2
  rw [← h1, ← h2]

/-- C8 witness: two creation runs from different registries, random streams
and lock states store the identical parsed AST for `color: red;`. -/
theorem parse_is_deterministic_witness :
    Parser.parse cssRed [] = Parser.parse cssRed [] ∧ c8R1.1.ast = c8R2.1.ast :=
  parse_is_deterministic cssRed [] "a" "b" (Old.initState ["x"]) c8OldSt2 c8R1 c8R2
    (by decide) (by decide)

/-- C9: along every valid lifecycle trace that never calls `unregister`, the
registry keeps its clone of the handle, so the strong count never reaches
zero and the sink is never unmounted — dropping every caller-held handle
alone does not unmount a registered style. -/
theorem registered_style_never_unmounts (ops : List Rc.RcOp)
    (h1 : Rc.validTrace Rc.init ops = true) (h2 : Rc.RcOp.unregister ∉ ops) :
    (Rc.run Rc.init ops).registered = true ∧ 1 ≤ (Rc.run Rc.init ops).rc ∧
    (Rc.run Rc.init ops).unmounts = 0 :=
  jc9_run Rc.init ops ⟨rfl, by decide, rfl⟩ h1 h2

/-- C9 witness: cloning once and dropping both caller handles, without
unregistering, leaves the registry's handle alive and the unmount count at
zero. -/
theorem registered_style_never_unmounts_witness :
    (Rc.run Rc.init c9Ops).registered = true ∧ 1 ≤ (Rc.run Rc.init c9Ops).rc ∧
    (Rc.run Rc.init c9Ops).unmounts = 0 :=
  registered_style_never_unmounts c9Ops (by decide) (by decide)

/-- C10 (amended): the prefix-free creation entry points do always pass the
default class prefix `"stylist"`: on a cache miss `Style::try_from_scopes`
produces a class name of the form `stylist-{suffix}`, and the old module's
`Style::new` (which never deduplicates) always does; but on a cache hit
`try_from_scopes` returns the previously registered style, whose class name
keeps the prefix it was created with (see the counterexample). -/
theorem default_prefix_entry_points (css : Scopes) (st : Core.CoreState) (cssStr : String)
    (stO : Old.OldState) (s : Core.Style) (st' : Core.CoreState)
    (r : Old.Style × Old.OldState)
    (hreg : Core.regGet st.registry ⟨css⟩ = none)
    (h1 : Core.try_from_scopes (.ok css : Except Unit Scopes) st = .ok (s, st'))
    (h2 : Old.new cssStr stO = .ok r) :
    Core.Style.get_class_name s st' = some ("stylist" ++ "-" ++ (getRandStr st.rands).1) ∧
    strStartsWith "stylist-" ("stylist" ++ "-" ++ (getRandStr st.rands).1) = true ∧
    r.1.class_name = "stylist" ++ "-" ++ (getRandStr stO.rands).1 ∧
    strStartsWith "stylist-" r.1.class_name = true := by
  unfold Core.try_from_scopes at h1
  dsimp only at h1
  cases hcr : Core.create_from_scopes "stylist" css st with
  | error p =>
    simp only [hcr] at h1
    exact absurd h1 (by simp)
  | ok rr =>
    simp only [hcr] at h1
    rw [Except.ok.injEq] at h1
    subst h1
    unfold Core.create_from_scopes Core.create_from_scopes_impl at hcr
    by_cases hp : st.poisoned = true
    · simp [hp] at hcr
    · simp only [Bool.not_eq_true] at hp
      simp only [hp, Bool.false_eq_true, if_false, hreg] at hcr
      by_cases hmf : st.mountFails = true
      · simp [hmf] at hcr
      · simp only [Bool.not_eq_true] at hmf
        simp only [hmf, Bool.false_eq_true, if_false] at hcr
        rw [Except.ok.injEq, Prod.mk.injEq] at hcr
        obtain ⟨hs, hst⟩ := hcr
        subst hs
        subst hst
        unfold Old.new Old.create at h2
        rw [Except.ok.injEq] at h2
        refine ⟨?_, strStartsWith_append _, ?_, ?_⟩
        · unfold Core.Style.get_class_name Core.contentsGet
          simp
        · rw [← h2]
        · rw [← h2]
          exact strStartsWith_append _

/-- C10 witness: on fresh registries both entry points produce class names
beginning with `stylist-`. -/
theorem default_prefix_entry_points_witness :
    Core.Style.get_class_name ⟨0⟩ c10WSt' =
      some ("stylist" ++ "-" ++ (getRandStr c10WSt.rands).1) ∧
    strStartsWith "stylist-" ("stylist" ++ "-" ++ (getRandStr c10WSt.rands).1) = true ∧
    c10OldR.1.class_name = "stylist" ++ "-" ++ (getRandStr c10OldSt.rands).1 ∧
    strStartsWith "stylist-" c10OldR.1.class_name = true :=
  default_prefix_entry_points cssSample c10WSt cssRed c10OldSt ⟨0⟩ c10WSt' c10OldR rfl
    (by decide) (by decide)

/-- C10 counterexample: after `Style::create_from_scopes("custom", ...)` has
registered the sample AST, `Style::try_from_scopes` on the same AST hits the
cache and returns the existing style whose class name is `custom-r1` — a
class name produced by `try_from_scopes` that does not begin with
`stylist-`, contradicting the claim. -/
theorem try_from_scopes_cache_hit_foreign_prefix_cex :
    Core.create_from_scopes "custom" cssSample c10St0 = .ok (⟨0⟩, c10St1) ∧
    (Core.try_from_scopes (.ok cssSample : Except Unit Scopes) c10St1).map
      (fun r => Core.Style.get_class_name r.1 r.2) = .ok (some "custom-r1") ∧
    strStartsWith "stylist-" "custom-r1" = false := by decide
